import Mathlib

/-!
Verification of the Archy command-execution daemon's core: the
completion-detection state machine (`src/main.rs`, fn
`wait_for_command_completion`) and the output classification/extraction
pipeline (`src/parser.rs`, `src/output.rs`).

Strings are modelled as `List Char`; Rust's byte-level operations on
UTF-8 text are modelled at the char level, with byte counts recovered via
`Char.utf8Size`.  Rust's `str::to_lowercase` is modelled by the ASCII
`Char.toLower` map (all needles checked by the code are ASCII).
-/

namespace Archy

/-- Strings as lists of characters. -/
abbrev Str := List Char

/-- Model of Rust `str::contains` (substring search). -/
def strContains (hay needle : Str) : Bool :=
  match hay with
  | [] => needle.isPrefixOf []
  | c :: t => needle.isPrefixOf (c :: t) || strContains t needle

/-- Model of Rust `str::to_lowercase` (ASCII-faithful). -/
def toLowerStr (s : Str) : Str := s.map Char.toLower

/-- Model of Rust `str::trim`: strip leading and trailing whitespace. -/
def strTrim (s : Str) : Str :=
  ((s.dropWhile Char.isWhitespace).reverse.dropWhile Char.isWhitespace).reverse

/-- Model of Rust `str::split_whitespace`: split on whitespace runs, no
empty chunks. -/
def splitWs (s : Str) : List Str :=
  (s.splitOnP Char.isWhitespace).filter (fun l => !l.isEmpty)

/-- Strip one trailing carriage return, as Rust `str::lines` does per line. -/
def rstripCR (l : Str) : Str :=
  match l.getLast? with
  | some '\r' => l.dropLast
  | _ => l

/-- Model of Rust `str::lines`: split on newline, one trailing newline
produces no extra empty line, a trailing carriage return is stripped. -/
def rlines (s : Str) : List Str :=
  if s = [] then []
  else
    let chunks := s.splitOn '\n'
    let chunks := if s.getLast? = some '\n' then chunks.dropLast else chunks
    chunks.map rstripCR

/-- UTF-8 byte length, matching Rust `str::len`. -/
def utf8Len (s : Str) : Nat := (s.map Char.utf8Size).sum

theorem isPrefixOf_exists (l h : Str) : l.isPrefixOf h = true ↔ ∃ t, l ++ t = h := by
  induction l generalizing h with
  | nil => simp [List.isPrefixOf]
  | cons c cs ih =>
      cases h with
      | nil => simp [List.isPrefixOf]
      | cons d ds =>
          simp only [List.isPrefixOf, Bool.and_eq_true, beq_iff_eq, ih, List.cons_append,
            List.cons.injEq]
          constructor
          · rintro ⟨rfl, t, rfl⟩
            exact ⟨t, rfl, rfl⟩
          · rintro ⟨t, rfl, rfl⟩
            exact ⟨rfl, t, rfl⟩

theorem strContains_exists (hay needle : Str) :
    strContains hay needle = true ↔ ∃ s t, hay = s ++ needle ++ t := by
  induction hay with
  | nil =>
      simp only [strContains, isPrefixOf_exists]
      constructor
      · rintro ⟨t, ht⟩
        rcases List.append_eq_nil.mp ht with ⟨rfl, rfl⟩
        exact ⟨[], [], rfl⟩
      · rintro ⟨s, t, hst⟩
        rcases List.append_eq_nil.mp hst.symm with ⟨h1, rfl⟩
        rcases List.append_eq_nil.mp h1 with ⟨rfl, rfl⟩
        exact ⟨[], rfl⟩
  | cons c tl ih =>
      simp only [strContains, Bool.or_eq_true, isPrefixOf_exists, ih]
      constructor
      · rintro (⟨t, ht⟩ | ⟨s, t, rfl⟩)
        · exact ⟨[], t, by simp [ht.symm]⟩
        · exact ⟨c :: s, t, by simp⟩
      · rintro ⟨s, t, hst⟩
        cases s with
        | nil =>
            exact Or.inl ⟨t, by simpa using hst.symm⟩
        | cons d s' =>
            simp only [List.cons_append, List.cons.injEq] at hst
            exact Or.inr ⟨s', t, hst.2⟩

/-! ## Completion Detector (`wait_for_command_completion`, src/main.rs:758-857)

One loop iteration's capture attempt (`tmux capture-pane`) can fail in
three ways that the code skips over: the process invocation itself errors,
the invocation runs but exits unsuccessfully, or the captured bytes are not
valid UTF-8.  Otherwise it yields text. -/

inductive PollOutcome where
  | execError
  | statusFailure
  | invalidUtf8
  | captured (text : Str)

/-- The loop's mutable state: `last_output` and `stable_count`. -/
structure PollState where
  lastOutput : Str
  stableCount : Nat
deriving DecidableEq

/-- Initial state: `last_output = String::new()`, `stable_count = 0`. -/
def initState : PollState := { lastOutput := [], stableCount := 0 }

/-- The detector's two terminal outcomes. -/
inductive CompletionResult where
  | Stable (text : Str)
  | TimedOut (best : Str)
deriving DecidableEq

/-- Stability bookkeeping: `if current_output == last_output { stable_count += 1 }
else { stable_count = 0; last_output = current_output.clone() }`. -/
def stabilityUpdate (st : PollState) (cur : Str) : PollState :=
  if cur = st.lastOutput then { st with stableCount := st.stableCount + 1 }
  else { lastOutput := cur, stableCount := 0 }

/-- The line inspected for the prompt: `current_output.trim().split('\n')`,
then `.last()` (the split of any string is non-empty, so the default is
never used). -/
def lastLine (cur : Str) : Str :=
  ((strTrim cur).splitOn '\n').getLastD []

/-- `has_prompt`: the last line contains one of the prompt glyphs. -/
def hasPrompt (l : Str) : Bool :=
  l.contains '$' || l.contains '#' || l.contains '❯' || l.contains '>' ||
    l.contains '❮' || l.contains '⚡'

/-- `command_not_echoed = !last_line.contains(command) || command.is_empty()`. -/
def commandNotEchoed (l cmd : Str) : Bool :=
  !(strContains l cmd) || cmd.isEmpty

/-- `waiting_for_password`: the lower-cased last line contains
`password for` or `[sudo]`. -/
def waitingForPassword (l : Str) : Bool :=
  strContains (toLowerStr l) "password for".data ||
    strContains (toLowerStr l) "[sudo]".data

/-- The guard of the `Stable` return:
`!waiting_for_password && has_prompt && command_not_echoed && stable_count >= 3`. -/
def stableNow (cmd : Str) (st : PollState) (cur : Str) : Bool :=
  !(waitingForPassword (lastLine cur)) && hasPrompt (lastLine cur) &&
    commandNotEchoed (lastLine cur) cmd && decide (3 ≤ st.stableCount)

/-- The poll loop of `wait_for_command_completion`, one list entry per
iteration of `while start_time.elapsed() < max_duration`.  A failed
capture leaves the state untouched; a successful capture updates the
stability counter and returns `Stable` when the guard fires; an exhausted
list is the timeout exit carrying `last_output`. -/
def waitLoop (cmd : Str) (st : PollState) : List PollOutcome → CompletionResult
  | [] => .TimedOut st.lastOutput
  | .execError :: rest => waitLoop cmd st rest
  | .statusFailure :: rest => waitLoop cmd st rest
  | .invalidUtf8 :: rest => waitLoop cmd st rest
  | .captured cur :: rest =>
      let st' := stabilityUpdate st cur
      if stableNow cmd st' cur then .Stable cur else waitLoop cmd st' rest

/-- The whole detector invocation on a given sequence of polled captures. -/
def wait_for_command_completion (cmd : Str) (polls : List PollOutcome) : CompletionResult :=
  waitLoop cmd initState polls

/-- The state after processing a poll sequence (ignoring early exit):
failed polls leave it unchanged, captures fold `stabilityUpdate`. -/
def runState (st : PollState) : List PollOutcome → PollState
  | [] => st
  | .execError :: rest => runState st rest
  | .statusFailure :: rest => runState st rest
  | .invalidUtf8 :: rest => runState st rest
  | .captured cur :: rest => runState (stabilityUpdate st cur) rest

/-- Does some poll of the sequence satisfy the `Stable` guard (with the
stability state threaded through as the loop does)? -/
def qualifyingPoll (cmd : Str) (st : PollState) : List PollOutcome → Bool
  | [] => false
  | .execError :: rest => qualifyingPoll cmd st rest
  | .statusFailure :: rest => qualifyingPoll cmd st rest
  | .invalidUtf8 :: rest => qualifyingPoll cmd st rest
  | .captured cur :: rest =>
      stableNow cmd (stabilityUpdate st cur) cur ||
        qualifyingPoll cmd (stabilityUpdate st cur) rest

/-- `max_wait_seconds`: caller value (default 600), capped at 3600. -/
def max_wait_seconds (requested : Option Nat) : Nat :=
  min (requested.getD 600) 3600

/-- The wait bound in milliseconds, `Duration::from_secs(max_wait_seconds)`. -/
def effectiveMaxWaitMs (requested : Option Nat) : Nat :=
  max_wait_seconds requested * 1000

/-- `check_interval_ms`: caller value (default 500), raised to at least 100. -/
def check_interval_ms (requested : Option Nat) : Nat :=
  max (requested.getD 500) 100

theorem waitLoop_stable_iff (cmd : Str) :
    ∀ (polls : List PollOutcome) (st : PollState),
      (∃ t, waitLoop cmd st polls = .Stable t) ↔ qualifyingPoll cmd st polls = true := by
  intro polls
  induction polls with
  | nil => intro st; simp [waitLoop, qualifyingPoll]
  | cons p rest ih =>
      intro st
      cases p with
      | execError => simpa [waitLoop, qualifyingPoll] using ih st
      | statusFailure => simpa [waitLoop, qualifyingPoll] using ih st
      | invalidUtf8 => simpa [waitLoop, qualifyingPoll] using ih st
      | captured cur =>
          by_cases h : stableNow cmd (stabilityUpdate st cur) cur = true
          · simp [waitLoop, qualifyingPoll, h]
          · simp [waitLoop, qualifyingPoll, h, ih]

theorem waitLoop_stable_conditions (cmd : Str) :
    ∀ (polls : List PollOutcome) (st : PollState) (t : Str),
      waitLoop cmd st polls = .Stable t →
      hasPrompt (lastLine t) = true ∧
        (cmd ≠ [] → strContains (lastLine t) cmd = false) ∧
        waitingForPassword (lastLine t) = false := by
  intro polls
  induction polls with
  | nil => intro st t h; simp [waitLoop] at h
  | cons p rest ih =>
      intro st t h
      cases p with
      | execError => exact ih st t h
      | statusFailure => exact ih st t h
      | invalidUtf8 => exact ih st t h
      | captured cur =>
          by_cases hg : stableNow cmd (stabilityUpdate st cur) cur = true
          · simp only [waitLoop, hg, if_true] at h
            cases h
            have := hg
            simp only [stableNow, Bool.and_eq_true, Bool.not_eq_true',
              commandNotEchoed, Bool.or_eq_true, Bool.not_eq_true,
              List.isEmpty_iff] at this
            refine ⟨this.1.1.2, ?_, this.1.1.1⟩
            intro hne
            rcases this.1.2 with hfalse | hempty
            · simpa using hfalse
            · exact absurd hempty hne
          · simp only [waitLoop, hg, if_false, Bool.false_eq_true] at h
            exact ih _ t h

/-! ## Parser data model (src/parser.rs, src/output.rs) -/

/-- `Importance` (src/parser.rs:9-15). -/
inductive Importance where
  | Critical
  | High
  | Medium
  | Low
  | Info
deriving DecidableEq

/-- `Finding` (src/parser.rs:17-22). -/
structure Finding where
  category : Str
  message : Str
  importance : Importance
deriving DecidableEq

/-- `Metadata` (src/parser.rs:24-30). -/
structure Metadata where
  line_count : Nat
  byte_count : Nat
  duration_ms : Option Nat
  format_detected : Str
deriving DecidableEq

/-- serde_json `Value`, as used by the extractors via the `json!` macro.
Numbers are modelled as integers (every number the extractors emit is a
count, a size or a percentage). -/
inductive JsonValue where
  | null
  | bool (b : Bool)
  | num (n : Int)
  | str (s : Str)
  | arr (xs : List JsonValue)
  | obj (fields : List (Str × JsonValue))

/-- `ParsedOutput` (src/parser.rs:32-39). -/
structure ParsedOutput where
  raw : Str
  structured : JsonValue
  findings : List Finding
  summary : Str
  metadata : Metadata

/-- The fields of `DisplayOutput` (src/output.rs:10-31) that the core
populates; the colorized `display`/`display_plain` strings belong to the
out-of-scope renderer. -/
structure DisplayOutput where
  success : Bool
  command : Str
  status : Str
  exit_code : Int
  structured : JsonValue
  findings : List Finding
  summary : Str
  metadata : Metadata
  raw_output : Str

/-- `DisplayOutput::from_timeout` (src/output.rs:93-118). -/
def DisplayOutput.from_timeout (cmd pOut : Str) : DisplayOutput :=
  { success := false
  , command := cmd
  , status := "timeout".data
  , exit_code := -1
  , structured := .obj [("timeout".data, .bool true), ("partial_output".data, .str pOut)]
  , findings := []
  , summary := "Command timeout".data
  , metadata :=
      { line_count := (rlines pOut).length
      , byte_count := utf8Len pOut
      , duration_ms := none
      , format_detected := "timeout".data }
  , raw_output := pOut }

/-- Is the outcome the `Stable` success return? -/
def isStable : CompletionResult → Bool
  | .Stable _ => true
  | .TimedOut _ => false

/-- Is the outcome the timeout return? -/
def isTimedOut : CompletionResult → Bool
  | .Stable _ => false
  | .TimedOut _ => true

theorem waitLoop_timeout_best (cmd : Str) :
    ∀ (polls : List PollOutcome) (st : PollState) (p : Str),
      waitLoop cmd st polls = .TimedOut p → p = (runState st polls).lastOutput := by
  intro polls
  induction polls with
  | nil =>
      intro st p h
      simp only [waitLoop, CompletionResult.TimedOut.injEq] at h
      simpa [runState] using h.symm
  | cons q rest ih =>
      intro st p h
      cases q with
      | execError => exact ih st p h
      | statusFailure => exact ih st p h
      | invalidUtf8 => exact ih st p h
      | captured cur =>
          by_cases hg : stableNow cmd (stabilityUpdate st cur) cur = true
          · simp [waitLoop, hg] at h
          · simp only [waitLoop, hg, if_false, Bool.false_eq_true] at h
            simpa [runState] using ih _ p h

/-! ## Claim theorems for the Completion Detector -/

/-- Claim C1: the Completion Detector returns `Stable` (with the full
captured text) iff some poll satisfies, after the stability update, all
four conditions: stability count at least 3, a prompt glyph in the last
non-empty line, the non-empty submitted command not echoed in that line,
and no password-prompt marker in that line; and a `Stable` return always
carries a capture whose last line has a prompt glyph, no command echo and
no password marker. -/
theorem completion_stable_characterization (cmd : Str) (polls : List PollOutcome) :
    ((∃ t, wait_for_command_completion cmd polls = .Stable t) ↔
      qualifyingPoll cmd initState polls = true) ∧
    (∀ (st : PollState) (cur : Str), stableNow cmd st cur = true ↔
      (3 ≤ st.stableCount ∧ hasPrompt (lastLine cur) = true ∧
        (cmd ≠ [] → strContains (lastLine cur) cmd = false) ∧
        waitingForPassword (lastLine cur) = false)) ∧
    (∀ t, wait_for_command_completion cmd polls = .Stable t →
      hasPrompt (lastLine t) = true ∧
        (cmd ≠ [] → strContains (lastLine t) cmd = false) ∧
        waitingForPassword (lastLine t) = false) := by
  refine ⟨waitLoop_stable_iff cmd polls initState, ?_, ?_⟩
  · intro st cur
    simp only [stableNow, Bool.and_eq_true, Bool.not_eq_true', commandNotEchoed,
      Bool.or_eq_true, Bool.not_eq_true, List.isEmpty_iff, decide_eq_true_eq]
    constructor
    · rintro ⟨⟨⟨hpw, hp⟩, hecho⟩, hcount⟩
      refine ⟨hcount, hp, ?_, hpw⟩
      intro hne
      rcases hecho with h | h
      · exact h
      · exact absurd h hne
    · rintro ⟨hcount, hp, hecho, hpw⟩
      refine ⟨⟨⟨hpw, hp⟩, ?_⟩, hcount⟩
      by_cases hc : cmd = []
      · exact Or.inr hc
      · exact Or.inl (hecho hc)
  · exact fun t h => waitLoop_stable_conditions cmd polls initState t h

theorem completion_stable_characterization_witness :
    ∃ t, wait_for_command_completion []
      [.captured "$ ".data, .captured "$ ".data, .captured "$ ".data,
        .captured "$ ".data] = .Stable t :=
  (completion_stable_characterization [] _).1.mpr (by decide)

/-- Claim C2: a capture whose last line contains the literal
`[sudo] password for user:` (or, lower-cased, `password for` or `[sudo]`)
never produces the `Stable` return on that poll, whatever the stability
count: the loop just carries on with the updated state. -/
theorem password_prompt_blocks_stable (cmd cur : Str) (st : PollState)
    (rest : List PollOutcome)
    (h : strContains (lastLine cur) "[sudo] password for user:".data = true ∨
         strContains (toLowerStr (lastLine cur)) "password for".data = true ∨
         strContains (toLowerStr (lastLine cur)) "[sudo]".data = true) :
    waitLoop cmd st (.captured cur :: rest) = waitLoop cmd (stabilityUpdate st cur) rest := by
  have hpw : waitingForPassword (lastLine cur) = true := by
    unfold waitingForPassword
    rw [Bool.or_eq_true]
    rcases h with h | h | h
    · left
      rcases (strContains_exists _ _).1 h with ⟨s, t, hl⟩
      have h2 : List.map Char.toLower "[sudo] password for user:".data =
          "[sudo] ".data ++ ("password for".data ++ " user:".data) := by decide
      exact (strContains_exists _ _).2
        ⟨toLowerStr s ++ "[sudo] ".data, " user:".data ++ toLowerStr t,
          by rw [hl]; simp only [toLowerStr, List.map_append, h2, List.append_assoc]⟩
    · exact Or.inl h
    · exact Or.inr h
  have hguard : stableNow cmd (stabilityUpdate st cur) cur = false := by
    simp [stableNow, hpw]
  simp [waitLoop, hguard]

theorem password_prompt_blocks_stable_witness :
    waitLoop [] { lastOutput := [], stableCount := 99 }
        [.captured "[sudo] password for user:".data] =
      .TimedOut "[sudo] password for user:".data := by
  rw [password_prompt_blocks_stable [] _ _ [] (Or.inl (by decide))]
  decide

/-- Claim C3: every invocation returns exactly one of `Stable`/`TimedOut`
(never both, never neither); a `TimedOut` return carries the best-known
previous capture (`last_output`), and `DisplayOutput::from_timeout`
surfaces it with `status = "timeout"` and `success = false`. -/
theorem completion_exactly_one_outcome (cmd : Str) (polls : List PollOutcome) :
    (isStable (wait_for_command_completion cmd polls) = true ∨
      isTimedOut (wait_for_command_completion cmd polls) = true) ∧
    ¬(isStable (wait_for_command_completion cmd polls) = true ∧
      isTimedOut (wait_for_command_completion cmd polls) = true) ∧
    (∀ p, wait_for_command_completion cmd polls = .TimedOut p →
      p = (runState initState polls).lastOutput ∧
        (DisplayOutput.from_timeout cmd p).status = "timeout".data ∧
        (DisplayOutput.from_timeout cmd p).success = false ∧
        (DisplayOutput.from_timeout cmd p).raw_output = p) := by
  refine ⟨?_, ?_, ?_⟩
  · cases h : wait_for_command_completion cmd polls <;> simp [isStable, isTimedOut]
  · cases h : wait_for_command_completion cmd polls <;> simp [isStable, isTimedOut]
  · intro p h
    exact ⟨waitLoop_timeout_best cmd polls initState p h, rfl, rfl, rfl⟩

theorem completion_exactly_one_outcome_witness :
    wait_for_command_completion "x".data [] = .TimedOut [] ∧
    (DisplayOutput.from_timeout "x".data []).status = "timeout".data ∧
    (DisplayOutput.from_timeout "x".data []).success = false :=
  ⟨rfl, ((completion_exactly_one_outcome "x".data []).2.2 [] rfl).2.1,
    ((completion_exactly_one_outcome "x".data []).2.2 [] rfl).2.2.1⟩

/-- Claim C8: the caller-supplied maximum wait is clamped to at most
3,600,000 ms and the poll interval to at least 100 ms before the loop. -/
theorem wait_parameters_clamped (w i : Option Nat) :
    effectiveMaxWaitMs w ≤ 3600000 ∧ 100 ≤ check_interval_ms i := by
  constructor
  · have h : max_wait_seconds w ≤ 3600 := Nat.min_le_right _ _
    calc effectiveMaxWaitMs w = max_wait_seconds w * 1000 := rfl
      _ ≤ 3600 * 1000 := Nat.mul_le_mul_right _ h
      _ = 3600000 := rfl
  · exact Nat.le_max_right _ _

/-- Claim C9: a poll whose capture attempt errors, exits unsuccessfully,
or yields invalid UTF-8 is skipped: the loop state (counter, saved text)
and the outcome are those of the remaining polls; and a run consisting
only of failed polls ends in `TimedOut`, never an error outcome. -/
theorem failed_polls_skipped (cmd : Str) (st : PollState) (rest : List PollOutcome) :
    waitLoop cmd st (.execError :: rest) = waitLoop cmd st rest ∧
    waitLoop cmd st (.statusFailure :: rest) = waitLoop cmd st rest ∧
    waitLoop cmd st (.invalidUtf8 :: rest) = waitLoop cmd st rest ∧
    runState st (.execError :: rest) = runState st rest ∧
    runState st (.statusFailure :: rest) = runState st rest ∧
    runState st (.invalidUtf8 :: rest) = runState st rest ∧
    (∀ polls : List PollOutcome,
      (∀ x ∈ polls, ∀ s, x ≠ PollOutcome.captured s) →
      waitLoop cmd st polls = .TimedOut st.lastOutput) := by
  refine ⟨rfl, rfl, rfl, rfl, rfl, rfl, ?_⟩
  intro polls
  induction polls with
  | nil => intro _; rfl
  | cons p rest' ih =>
      intro hall
      have hrest : ∀ x ∈ rest', ∀ s, x ≠ PollOutcome.captured s :=
        fun x hx s => hall x (List.mem_cons_of_mem _ hx) s
      cases p with
      | execError => simpa [waitLoop] using ih hrest
      | statusFailure => simpa [waitLoop] using ih hrest
      | invalidUtf8 => simpa [waitLoop] using ih hrest
      | captured s => exact absurd rfl (hall _ (List.mem_cons_self _ _) s)

theorem failed_polls_skipped_witness :
    waitLoop "x".data initState [.execError, .statusFailure, .invalidUtf8] =
      .TimedOut [] :=
  (failed_polls_skipped "x".data initState []).2.2.2.2.2.2
    [.execError, .statusFailure, .invalidUtf8]
    (fun x hx s => by
      simp only [List.mem_cons, List.not_mem_nil, or_false] at hx
      rcases hx with rfl | rfl | rfl <;> exact fun hc => PollOutcome.noConfusion hc)

/-! ## Format Classifier (`detect_format`, src/parser.rs:42-79) -/

/-- The `{` character (written via its code point). -/
def lbrace : Char := Char.ofNat 123

/-- `detect_format`: command-name tier first, then content tier, with
`plain_text` as the fallback (src/parser.rs:42-79). -/
def detect_format (output command : Str) : Str :=
  let lower_cmd := toLowerStr command
  let lower_output := toLowerStr output
  if strContains lower_cmd "nmap".data then "nmap".data
  else if strContains lower_cmd "netstat".data || strContains lower_cmd "ss".data then
    "network_table".data
  else if strContains lower_cmd "ps".data || strContains lower_cmd "top".data then
    "process_table".data
  else if strContains lower_cmd "ls".data &&
      (strContains lower_cmd "-l".data || strContains lower_cmd "--long".data) then
    "ls_long".data
  else if strContains lower_cmd "ip".data &&
      (strContains lower_cmd "addr".data || strContains lower_cmd "ip a".data ||
        lower_cmd == "ip a".data) then
    "ip_addr".data
  else if strContains lower_cmd "systemctl".data then "systemctl".data
  else if strContains lower_cmd "df".data then "disk_usage".data
  else if strContains lower_cmd "lsblk".data then "block_devices".data
  else if strContains lower_cmd "journalctl".data then "journalctl".data
  else if strContains lower_output "starting nmap".data ||
      strContains lower_output "host is up".data then "nmap".data
  else if strContains lower_output "tcp".data &&
      strContains lower_output "established".data then "network_table".data
  else if decide
      (3 < ((rlines output).filter (fun l => l.contains '|' || l.contains '│')).length) then
    "table".data
  else if output.head? == some lbrace || output.head? == some '[' then "json".data
  else "plain_text".data

/-- First-match-wins scan over an ordered rule list. -/
def firstMatch (rules : List ((Str → Bool) × Str)) (s : Str) : Option Str :=
  match rules with
  | [] => none
  | (p, f) :: rest => if p s then some f else firstMatch rest s

/-- The command-name tier of `detect_format`, in source order, applied to
the lower-cased command. -/
def commandRules : List ((Str → Bool) × Str) :=
  [ (fun c => strContains c "nmap".data, "nmap".data)
  , (fun c => strContains c "netstat".data || strContains c "ss".data, "network_table".data)
  , (fun c => strContains c "ps".data || strContains c "top".data, "process_table".data)
  , (fun c => strContains c "ls".data &&
      (strContains c "-l".data || strContains c "--long".data), "ls_long".data)
  , (fun c => strContains c "ip".data &&
      (strContains c "addr".data || strContains c "ip a".data || c == "ip a".data),
      "ip_addr".data)
  , (fun c => strContains c "systemctl".data, "systemctl".data)
  , (fun c => strContains c "df".data, "disk_usage".data)
  , (fun c => strContains c "lsblk".data, "block_devices".data)
  , (fun c => strContains c "journalctl".data, "journalctl".data) ]

/-- The content tier of `detect_format`, in source order, applied to the
raw output. -/
def contentRules : List ((Str → Bool) × Str) :=
  [ (fun out => strContains (toLowerStr out) "starting nmap".data ||
      strContains (toLowerStr out) "host is up".data, "nmap".data)
  , (fun out => strContains (toLowerStr out) "tcp".data &&
      strContains (toLowerStr out) "established".data, "network_table".data)
  , (fun out =>
      decide (3 < ((rlines out).filter (fun l => l.contains '|' || l.contains '│')).length),
      "table".data)
  , (fun out => out.head? == some lbrace || out.head? == some '[', "json".data) ]

/-- Every value `detect_format` can produce. -/
def allFormats : List Str :=
  [ "nmap".data, "network_table".data, "process_table".data, "ls_long".data
  , "ip_addr".data, "systemctl".data, "disk_usage".data, "block_devices".data
  , "journalctl".data, "table".data, "json".data, "plain_text".data ]

theorem getD_ite (c : Prop) [Decidable c] (f : Str) (x : Option Str) (d : Str) :
    (if c then some f else x).getD d = if c then f else x.getD d := by
  split <;> rfl

theorem firstMatch_mem (rules : List ((Str → Bool) × Str)) (s : Str) (d : Str)
    (fmts : List Str) (hr : ∀ pf ∈ rules, pf.2 ∈ fmts) (hd : d ∈ fmts) :
    (firstMatch rules s).getD d ∈ fmts := by
  induction rules with
  | nil => simpa [firstMatch]
  | cons pf rest ih =>
      obtain ⟨p, f⟩ := pf
      simp only [firstMatch]
      split
      · exact hr ⟨p, f⟩ (List.mem_cons_self _ _)
      · exact ih fun x hx => hr x (List.mem_cons_of_mem _ hx)

/-- Claim C4: `detect_format` is total, always lands in the fixed format
set, decomposes as the command tier (first match wins, source order)
followed by the content tier, and falls back to `plain_text` when no rule
of either tier fires. -/
theorem detect_format_total_and_priority (output command : Str) :
    detect_format output command =
      (firstMatch commandRules (toLowerStr command)).getD
        ((firstMatch contentRules output).getD "plain_text".data) ∧
    detect_format output command ∈ allFormats ∧
    (firstMatch commandRules (toLowerStr command) = none →
      firstMatch contentRules output = none →
      detect_format output command = "plain_text".data) := by
  have h1 : detect_format output command =
      (firstMatch commandRules (toLowerStr command)).getD
        ((firstMatch contentRules output).getD "plain_text".data) := by
    simp only [commandRules, contentRules, firstMatch, getD_ite, Option.getD_none]
    rfl
  refine ⟨h1, ?_, ?_⟩
  · rw [h1]
    refine firstMatch_mem _ _ _ _ (by decide) (firstMatch_mem _ _ _ _ (by decide) (by decide))
  · intro hc ho
    rw [h1, hc, ho]
    rfl

theorem detect_format_total_and_priority_witness :
    detect_format "hello".data "echo hi".data = "plain_text".data :=
  (detect_format_total_and_priority "hello".data "echo hi".data).2.2
    (by decide) (by decide)

/-! ## Format Extractors (src/parser.rs:109-604) -/

/-- Decimal rendering of a count, as Rust `format!` prints an unsigned
integer. -/
def natToStr (n : Nat) : Str := Nat.toDigits 10 n

/-- Model of Rust `Vec::join(", ")`. -/
def joinComma (xs : List Str) : Str :=
  match xs with
  | [] => []
  | x :: rest => rest.foldl (fun a s => a ++ ", ".data ++ s) x

/-- Model of Rust unsigned-integer `str::parse`: an optional leading `+`,
then one or more ASCII digits, failing on overflow past `bound`. -/
def parseUIntB (bound : Nat) (s : Str) : Option Nat :=
  let digits := match s with
    | '+' :: rest => rest
    | _ => s
  if digits ≠ [] ∧ digits.all Char.isDigit then
    let v := digits.foldl (fun a c => a * 10 + (c.toNat - 48)) 0
    if v ≤ bound then some v else none
  else none

/-- `str::parse::<u8>`. -/
def parseU8 (s : Str) : Option Nat := parseUIntB 255 s

/-- `str::parse::<u64>`. -/
def parseU64 (s : Str) : Option Nat := parseUIntB (2 ^ 64 - 1) s

/-- Model of Rust `str::trim_end_matches(c)`: drop every trailing `c`. -/
def trimEndMatches (c : Char) (s : Str) : Str :=
  (s.reverse.dropWhile (fun d => d == c)).reverse

/-- Model of Rust `str::ends_with(char)`. -/
def endsWithChar (s : Str) (c : Char) : Bool := s.getLast? == some c

/-- Model of Rust `str::ends_with(&str)`. -/
def strEndsWith (s suf : Str) : Bool := suf.reverse.isPrefixOf s.reverse

/-- Model of Rust `str::replace(pat, to)`: replace every non-overlapping
occurrence, left to right (the callers only pass non-empty patterns). -/
def strReplace (pat rep : Str) : Str → Str
  | [] => []
  | c :: rest =>
      if pat ≠ [] ∧ pat.isPrefixOf (c :: rest) then
        rep ++ strReplace pat rep (rest.drop (pat.length - 1))
      else c :: strReplace pat rep rest
termination_by s => s.length
decreasing_by
  · simp only [List.length_cons, List.length_drop]
    omega
  · simp only [List.length_cons]
    omega

/-- Model of Rust `str::find(&str)`: index of the first occurrence. -/
def findSubstrIdx (hay needle : Str) : Option Nat :=
  match hay with
  | [] => if needle = [] then some 0 else none
  | _ :: t =>
      if needle.isPrefixOf hay then some 0
      else (findSubstrIdx t needle).map (· + 1)

/-- `HashSet::insert`, modelled as insertion-ordered deduplication. -/
def insertDedup (xs : List Str) (x : Str) : List Str :=
  if xs.contains x then xs else xs ++ [x]

/-- Per-line scan of `parse_nmap` (src/parser.rs:115-132); accumulator is
`(hosts_up, open_ports, services)`. -/
def nmapStep (acc : Nat × List Str × List Str) (line : Str) : Nat × List Str × List Str :=
  let lower := toLowerStr line
  let hosts := if strContains lower "host is up".data then acc.1 + 1 else acc.1
  if strContains line "/tcp".data && strContains lower "open".data then
    let parts := splitWs line
    match parts.head? with
    | some port_part =>
        (hosts, acc.2.1 ++ [port_part],
          if 2 < parts.length then acc.2.2 ++ [parts.getD 2 []] else acc.2.2)
    | none => (hosts, acc.2.1, acc.2.2)
  else (hosts, acc.2.1, acc.2.2)

/-- The whole-output scan of `parse_nmap`. -/
def nmapScan (raw : Str) : Nat × List Str × List Str :=
  (rlines raw).foldl nmapStep (0, [], [])

/-- `parse_nmap` (src/parser.rs:109-178). -/
def parse_nmap (raw : Str) (metadata : Metadata) : ParsedOutput :=
  let scan := nmapScan raw
  let hosts_up := scan.1
  let open_ports := scan.2.1
  let services := scan.2.2
  let findings :=
    (if 0 < hosts_up then
      [⟨"Host Count".data,
        "Found ".data ++ natToStr hosts_up ++ " active host(s) on network".data,
        if 10 < hosts_up then Importance.High else Importance.Medium⟩]
    else []) ++
    (if open_ports ≠ [] then
      [⟨"Open Ports".data,
        "Detected ".data ++ natToStr open_ports.length ++ " open port(s): ".data ++
          joinComma open_ports,
        Importance.High⟩]
    else []) ++
    (if services ≠ [] then
      [⟨"Services".data, "Services detected: ".data ++ joinComma services,
        Importance.Info⟩]
    else [])
  { raw := raw
  , structured := .obj
      [ ("hosts_up".data, .num hosts_up)
      , ("open_ports".data, .arr (open_ports.map .str))
      , ("services".data, .arr (services.map .str))
      , ("scan_type".data, .str "nmap".data) ]
  , findings := findings
  , summary :=
      if 0 < hosts_up then
        "Network scan complete - ".data ++ natToStr hosts_up ++ " hosts active, ".data ++
          natToStr open_ports.length ++ " open ports".data
      else "Network scan complete - no hosts detected".data
  , metadata := metadata }

/-- Per-line scan of `parse_network_table` (src/parser.rs:187-204);
accumulator is `(connections, established, listening)`. -/
def netStep (acc : List JsonValue × Nat × Nat) (line : Str) : List JsonValue × Nat × Nat :=
  let lower := toLowerStr line
  if strContains lower "established".data then
    let parts := splitWs line
    ((if 5 ≤ parts.length then
        acc.1 ++ [.obj
          [ ("protocol".data, .str (parts.headD []))
          , ("local".data, .str (parts.getD 3 []))
          , ("remote".data, .str (parts.getD 4 []))
          , ("state".data, .str "ESTABLISHED".data) ]]
      else acc.1), acc.2.1 + 1, acc.2.2)
  else if strContains lower "listen".data then (acc.1, acc.2.1, acc.2.2 + 1)
  else acc

/-- The whole-output scan of `parse_network_table`. -/
def netScan (raw : Str) : List JsonValue × Nat × Nat :=
  (rlines raw).foldl netStep ([], 0, 0)

/-- `parse_network_table` (src/parser.rs:181-237). -/
def parse_network_table (raw : Str) (metadata : Metadata) : ParsedOutput :=
  let scan := netScan raw
  let connections := scan.1
  let established := scan.2.1
  let listening := scan.2.2
  let findings :=
    (if 0 < established then
      [⟨"Active Connections".data,
        natToStr established ++ " established connection(s)".data,
        if 50 < established then Importance.High else Importance.Info⟩]
    else []) ++
    (if 0 < listening then
      [⟨"Listening Ports".data, natToStr listening ++ " listening port(s)".data,
        Importance.Info⟩]
    else [])
  { raw := raw
  , structured := .obj
      [ ("connections".data, .arr connections)
      , ("established_count".data, .num established)
      , ("listening_count".data, .num listening) ]
  , findings := findings
  , summary := natToStr established ++ " established, ".data ++ natToStr listening ++
      " listening".data
  , metadata := metadata }

/-- `parse_process_table` (src/parser.rs:240-266). -/
def parse_process_table (raw : Str) (metadata : Metadata) : ParsedOutput :=
  let process_count :=
    ((rlines raw).filter
      (fun l => !(strTrim l).isEmpty && !(strContains (toLowerStr l) "pid".data))).length
  { raw := raw
  , structured := .obj
      [ ("process_count".data, .num process_count)
      , ("type".data, .str "process_list".data) ]
  , findings :=
      if 0 < process_count then
        [⟨"Process Count".data, natToStr process_count ++ " process(es) listed".data,
          Importance.Info⟩]
      else []
  , summary := natToStr process_count ++ " processes".data
  , metadata := metadata }

/-- Per-line scan of `parse_ls_long` (src/parser.rs:275-288); accumulator
is `(files, directories, total_size)`. -/
def lsStep (acc : Nat × Nat × Nat) (line : Str) : Nat × Nat × Nat :=
  match line.head? with
  | some 'd' => (acc.1, acc.2.1 + 1, acc.2.2)
  | some '-' =>
      let parts := splitWs line
      let add :=
        if 4 < parts.length then
          match parseU64 (parts.getD 4 []) with
          | some v => v
          | none => 0
        else 0
      (acc.1 + 1, acc.2.1, acc.2.2 + add)
  | _ => acc

/-- `parse_ls_long` (src/parser.rs:269-313). -/
def parse_ls_long (raw : Str) (metadata : Metadata) : ParsedOutput :=
  let scan := (rlines raw).foldl lsStep (0, 0, 0)
  let files := scan.1
  let directories := scan.2.1
  let total_size := scan.2.2
  { raw := raw
  , structured := .obj
      [ ("files".data, .num files)
      , ("directories".data, .num directories)
      , ("total_size_bytes".data, .num total_size) ]
  , findings :=
      if 0 < files ∨ 0 < directories then
        [⟨"Directory Contents".data,
          natToStr files ++ " file(s), ".data ++ natToStr directories ++
            " director(ies)".data,
          Importance.Info⟩]
      else []
  , summary := natToStr files ++ " files, ".data ++ natToStr directories ++
      " directories".data
  , metadata := metadata }

/-- The capture group of the regex `^\d+:\s+(\S+):` applied to a line:
leading digits, a colon, whitespace, then the longest non-whitespace run
prefix that is followed by a colon inside the run (backtracking
semantics). -/
def interfaceCapture (line : Str) : Option Str :=
  let digits := line.takeWhile Char.isDigit
  let r1 := line.dropWhile Char.isDigit
  if digits = [] then none
  else
    match r1 with
    | ':' :: r2 =>
        let ws := r2.takeWhile Char.isWhitespace
        let r3 := r2.dropWhile Char.isWhitespace
        if ws = [] then none
        else
          let run := r3.takeWhile (fun c => !c.isWhitespace)
          match run.reverse.findIdx? (fun c => c == ':') with
          | some j =>
              let i := run.length - 1 - j
              if 1 ≤ i then some (run.take i) else none
          | none => none
    | _ => none

/-- One-or-more-digits matcher (`\d+`), returning the run and the rest. -/
def matchDigits1 (s : Str) : Option (Str × Str) :=
  let ds := s.takeWhile Char.isDigit
  if ds = [] then none else some (ds, s.dropWhile Char.isDigit)

/-- The part of the regex `inet\s+(\d+\.\d+\.\d+\.\d+/\d+)` after the
literal `inet`: whitespace, then the captured address. -/
def matchIpBody (s : Str) : Option Str :=
  let ws := s.takeWhile Char.isWhitespace
  let r0 := s.dropWhile Char.isWhitespace
  if ws = [] then none
  else do
    let (d1, r1) ← matchDigits1 r0
    match r1 with
    | '.' :: r1' => do
        let (d2, r2) ← matchDigits1 r1'
        match r2 with
        | '.' :: r2' => do
            let (d3, r3) ← matchDigits1 r2'
            match r3 with
            | '.' :: r3' => do
                let (d4, r4) ← matchDigits1 r3'
                match r4 with
                | '/' :: r4' => do
                    let (d5, _) ← matchDigits1 r4'
                    some (d1 ++ '.' :: d2 ++ '.' :: d3 ++ '.' :: d4 ++ '/' :: d5)
                | _ => none
            | _ => none
        | _ => none
    | _ => none

/-- Leftmost match of `inet\s+(\d+\.\d+\.\d+\.\d+/\d+)` in a line. -/
def ipv4Capture : Str → Option Str
  | [] => none
  | c :: rest =>
      if "inet".data.isPrefixOf (c :: rest) then
        match matchIpBody ((c :: rest).drop 4) with
        | some cap => some cap
        | none => ipv4Capture rest
      else ipv4Capture rest

/-- Per-line scan of `parse_ip_addr` (src/parser.rs:324-336); accumulator
is `(interfaces, ipv4_addresses)`. -/
def ipStep (acc : List Str × List Str) (line : Str) : List Str × List Str :=
  let acc1 := match interfaceCapture line with
    | some iface => (acc.1 ++ [iface], acc.2)
    | none => acc
  match ipv4Capture line with
  | some ip => (acc1.1, acc1.2 ++ [ip])
  | none => acc1

/-- `parse_ip_addr` (src/parser.rs:316-368). -/
def parse_ip_addr (raw : Str) (metadata : Metadata) : ParsedOutput :=
  let scan := (rlines raw).foldl ipStep ([], [])
  let interfaces := scan.1
  let ipv4_addresses := scan.2
  { raw := raw
  , structured := .obj
      [ ("interfaces".data, .arr (interfaces.map .str))
      , ("ipv4_addresses".data, .arr (ipv4_addresses.map .str)) ]
  , findings :=
      (if interfaces ≠ [] then
        [⟨"Network Interfaces".data,
          natToStr interfaces.length ++ " interface(s) detected: ".data ++
            joinComma interfaces,
          Importance.Info⟩]
      else []) ++
      (if ipv4_addresses ≠ [] then
        [⟨"IP Addresses".data,
          natToStr ipv4_addresses.length ++ " IPv4 address(es): ".data ++
            joinComma ipv4_addresses,
          Importance.Info⟩]
      else [])
  , summary := natToStr interfaces.length ++ " interfaces, ".data ++
      natToStr ipv4_addresses.length ++ " IPs".data
  , metadata := metadata }

/-- Per-line scan of `parse_systemctl` (src/parser.rs:376-392);
accumulator is `(active_services, failed_services)`. -/
def systemctlStep (acc : List Str × List Str) (line : Str) : List Str × List Str :=
  let lower := toLowerStr line
  let parts := splitWs line
  match parts.head? with
  | some first =>
      if strEndsWith first ".service".data || strContains first ".service".data then
        let service_name := strReplace ".service".data [] first
        if strContains lower "active".data && strContains lower "running".data then
          (acc.1 ++ [service_name], acc.2)
        else if strContains lower "failed".data then (acc.1, acc.2 ++ [service_name])
        else acc
      else acc
  | none => acc

/-- `parse_systemctl` (src/parser.rs:371-431). -/
def parse_systemctl (raw : Str) (metadata : Metadata) : ParsedOutput :=
  let scan := (rlines raw).foldl systemctlStep ([], [])
  let active_services := scan.1
  let failed_services := scan.2
  { raw := raw
  , structured := .obj
      [ ("active_count".data, .num active_services.length)
      , ("failed_count".data, .num failed_services.length)
      , ("active_services".data, .arr (active_services.map .str))
      , ("failed_services".data, .arr (failed_services.map .str)) ]
  , findings :=
      (if failed_services ≠ [] then
        [⟨"Failed Services".data,
          natToStr failed_services.length ++ " service(s) in failed state: ".data ++
            joinComma failed_services,
          Importance.High⟩]
      else []) ++
      (if active_services ≠ [] then
        [⟨"Active Services".data,
          natToStr active_services.length ++ " service(s) active and running".data,
          Importance.Info⟩]
      else [])
  , summary :=
      if failed_services ≠ [] then
        natToStr failed_services.length ++ " failed services: ".data ++
          joinComma failed_services
      else
        natToStr active_services.length ++ " active, ".data ++
          natToStr failed_services.length ++ " failed".data
  , metadata := metadata }

/-- Per-line JSON row of `parse_disk_usage` (src/parser.rs:444-451). -/
def fsJson (parts : List Str) (usage : Nat) : JsonValue :=
  .obj
    [ ("filesystem".data, .str (parts.headD []))
    , ("size".data, .str (parts.getD 1 []))
    , ("used".data, .str (parts.getD 2 []))
    , ("available".data, .str (parts.getD 3 []))
    , ("usage_percent".data, .num usage)
    , ("mount".data, .str (parts.getD 5 [])) ]

/-- The finding message `"{} is {}% full"` of `parse_disk_usage`. -/
def diskMsg (parts : List Str) (usage : Nat) : Str :=
  parts.headD [] ++ " is ".data ++ natToStr usage ++ "% full".data

/-- Per-line scan of `parse_disk_usage` (src/parser.rs:438-470);
accumulator is `(filesystems, findings)`. -/
def diskUsageStep (acc : List JsonValue × List Finding) (line : Str) :
    List JsonValue × List Finding :=
  if line.contains '%' then
    let parts := splitWs line
    if 5 ≤ parts.length then
      match parts.find? (fun p => endsWithChar p '%') with
      | some usage_str =>
          match parseU8 (trimEndMatches '%' usage_str) with
          | some usage =>
              (acc.1 ++ [fsJson parts usage],
                acc.2 ++
                  (if 90 < usage then
                    [⟨"Disk Space Critical".data, diskMsg parts usage,
                      Importance.Critical⟩]
                  else if 80 < usage then
                    [⟨"Disk Space Warning".data, diskMsg parts usage,
                      Importance.High⟩]
                  else []))
          | none => acc
      | none => acc
    else acc
  else acc

/-- `parse_disk_usage` (src/parser.rs:434-485). -/
def parse_disk_usage (raw : Str) (metadata : Metadata) : ParsedOutput :=
  let scan := (rlines raw).foldl diskUsageStep ([], [])
  { raw := raw
  , structured := .obj [("filesystems".data, .arr scan.1)]
  , findings := scan.2
  , summary := natToStr scan.1.length ++ " filesystem(s) checked".data
  , metadata := metadata }

/-- `parse_json` (src/parser.rs:488-507).  The serde_json parser itself is
external library code, so it is taken as a parameter: `some` on valid
JSON, `none` on a parse failure; the repository's contribution is the
match and the `json!(\x7b "raw": raw \x7d)` fallback. -/
def parse_json (jsonParse : Str → Option JsonValue) (raw : Str) (metadata : Metadata) :
    ParsedOutput :=
  let structured := match jsonParse raw with
    | some v => v
    | none => .obj [("raw".data, .str raw)]
  { raw := raw
  , structured := structured
  , findings := [⟨"Format".data, "JSON data detected and parsed".data, Importance.Info⟩]
  , summary := "JSON data parsed successfully".data
  , metadata := metadata }

/-- Per-line scan of `parse_journalctl` (src/parser.rs:516-535);
accumulator is `(errors, warnings, failed_services)`. -/
def jctlStep (acc : List Str × List Str × List Str) (line : Str) :
    List Str × List Str × List Str :=
  let lower := toLowerStr line
  if strContains lower "error".data || strContains lower "failed".data ||
      strContains lower "fail".data then
    let failed :=
      if strContains lower ".service".data then
        match line.findIdx? Char.isAlpha with
        | some start =>
            match findSubstrIdx (line.drop start) ".service".data with
            | some e => insertDedup acc.2.2 ((line.drop start).take e)
            | none => acc.2.2
        | none => acc.2.2
      else acc.2.2
    (acc.1 ++ [line], acc.2.1, failed)
  else if strContains lower "warning".data || strContains lower "warn".data then
    (acc.1, acc.2.1 ++ [line], acc.2.2)
  else acc

/-- `parse_journalctl` (src/parser.rs:510-584). -/
def parse_journalctl (raw : Str) (metadata : Metadata) : ParsedOutput :=
  let scan := (rlines raw).foldl jctlStep ([], [], [])
  let errors := scan.1
  let warnings := scan.2.1
  let failed_services := scan.2.2
  { raw := raw
  , structured := .obj
      [ ("error_count".data, .num errors.length)
      , ("warning_count".data, .num warnings.length)
      , ("failed_services".data, .arr (failed_services.map .str))
      , ("errors".data, .arr ((errors.take 10).map .str))
      , ("warnings".data, .arr ((warnings.take 10).map .str)) ]
  , findings :=
      (if errors ≠ [] then
        [⟨"Errors".data, natToStr errors.length ++ " error(s) found in logs".data,
          Importance.High⟩]
      else []) ++
      (if warnings ≠ [] then
        [⟨"Warnings".data, natToStr warnings.length ++ " warning(s) found in logs".data,
          Importance.Medium⟩]
      else []) ++
      (if failed_services ≠ [] then
        [⟨"Failed Services".data,
          "Services with issues: ".data ++ joinComma failed_services,
          Importance.High⟩]
      else [])
  , summary :=
      if errors ≠ [] ∨ warnings ≠ [] then
        natToStr errors.length ++ " error(s), ".data ++ natToStr warnings.length ++
          " warning(s) in logs".data
      else "No errors or warnings found".data
  , metadata := metadata }

/-- `parse_generic` (src/parser.rs:587-604). -/
def parse_generic (raw : Str) (metadata : Metadata) : ParsedOutput :=
  { raw := raw
  , structured := .obj
      [ ("type".data, .str "plain_text".data)
      , ("line_count".data, .num metadata.line_count) ]
  , findings := []
  , summary := "Output captured (".data ++ natToStr metadata.line_count ++ " lines)".data
  , metadata := metadata }

/-- `parse_intelligently` (src/parser.rs:82-106): classify, compute the
metadata once, then dispatch to the matching extractor (the
`block_devices` format has no extractor arm and falls to the generic
one, as in the source's `_` match arm). -/
def parse_intelligently (jsonParse : Str → Option JsonValue) (raw command : Str) :
    ParsedOutput :=
  let format := detect_format raw command
  let metadata : Metadata :=
    { line_count := (rlines raw).length
    , byte_count := utf8Len raw
    , duration_ms := none
    , format_detected := format }
  if format = "nmap".data then parse_nmap raw metadata
  else if format = "network_table".data then parse_network_table raw metadata
  else if format = "process_table".data then parse_process_table raw metadata
  else if format = "ls_long".data then parse_ls_long raw metadata
  else if format = "ip_addr".data then parse_ip_addr raw metadata
  else if format = "systemctl".data then parse_systemctl raw metadata
  else if format = "disk_usage".data then parse_disk_usage raw metadata
  else if format = "journalctl".data then parse_journalctl raw metadata
  else if format = "json".data then parse_json jsonParse raw metadata
  else parse_generic raw metadata

/-! ## Claim theorems for the extraction pipeline -/

theorem mem_ite_nil {α : Type} (f : α) (xs : List α) (c : Prop) [Decidable c]
    (h : f ∈ (if c then xs else [])) : c ∧ f ∈ xs := by
  split at h
  · exact ⟨by assumption, h⟩
  · simp at h

/-- A fixed metadata record for concrete instantiations. -/
def mdSample : Metadata :=
  { line_count := 0, byte_count := 0, duration_ms := none
  , format_detected := "plain_text".data }

/-- The findings a single `df` row contributes. -/
def rowFindings (line : Str) : List Finding := (diskUsageStep ([], []) line).2

/-- The `df -h` row of the end-to-end scenario. -/
def dfRow : Str := "/dev/sda1 100G 96G 2G 96% /".data

/-- A two-line `df -h` capture: header plus the scenario row. -/
def dfCapture : Str := "Filesystem Size Used Avail Use% Mounted on".data ++ '\n' :: dfRow

/-- Claim C5: disk-usage thresholds are strict (`>90` Critical, `>80`
High, exactly 80 neither), and the `df -h` capture containing
`/dev/sda1 100G 96G 2G 96% /` classifies as `disk_usage` and yields one
filesystem entry with `usage_percent = 96` and one Critical finding
referencing `/dev/sda1`. -/
theorem disk_usage_strict_thresholds :
    (∀ (line : Str) (parts : List Str) (us : Str) (usage : Nat),
      line.contains '%' = true →
      splitWs line = parts →
      5 ≤ parts.length →
      parts.find? (fun p => endsWithChar p '%') = some us →
      parseU8 (trimEndMatches '%' us) = some usage →
      ((90 < usage →
        rowFindings line =
          [⟨"Disk Space Critical".data, diskMsg parts usage, Importance.Critical⟩]) ∧
       (80 < usage → usage ≤ 90 →
        rowFindings line =
          [⟨"Disk Space Warning".data, diskMsg parts usage, Importance.High⟩]) ∧
       (usage = 80 → rowFindings line = []))) ∧
    detect_format dfCapture "df -h".data = "disk_usage".data ∧
    (parse_intelligently (fun _ => none) dfCapture "df -h".data).metadata.format_detected =
      "disk_usage".data ∧
    (parse_intelligently (fun _ => none) dfCapture "df -h".data).structured =
      .obj [("filesystems".data, .arr [fsJson (splitWs dfRow) 96])] ∧
    (parse_intelligently (fun _ => none) dfCapture "df -h".data).findings =
      [⟨"Disk Space Critical".data, diskMsg (splitWs dfRow) 96, Importance.Critical⟩] ∧
    fsJson (splitWs dfRow) 96 =
      .obj
        [ ("filesystem".data, .str "/dev/sda1".data)
        , ("size".data, .str "100G".data)
        , ("used".data, .str "96G".data)
        , ("available".data, .str "2G".data)
        , ("usage_percent".data, .num 96)
        , ("mount".data, .str "/".data) ] ∧
    strContains (diskMsg (splitWs dfRow) 96) "/dev/sda1".data = true := by
  refine ⟨?_, by decide, rfl, rfl, rfl, rfl, by decide⟩
  intro line parts us usage hpc hsplit hlen hfind hparse
  have hline : rowFindings line =
      (if 90 < usage then
        [⟨"Disk Space Critical".data, diskMsg parts usage, Importance.Critical⟩]
      else if 80 < usage then
        [⟨"Disk Space Warning".data, diskMsg parts usage, Importance.High⟩]
      else []) := by
    simp only [rowFindings, diskUsageStep, hpc, hsplit, if_true, eq_self_iff_true]
    rw [if_pos hlen]
    simp only [hfind, hparse, List.nil_append]
  refine ⟨fun h90 => ?_, fun h80 h90 => ?_, fun h80 => ?_⟩
  · rw [hline, if_pos h90]
  · rw [hline, if_neg (by omega), if_pos h80]
  · rw [hline, if_neg (by omega), if_neg (by omega)]

theorem disk_usage_strict_thresholds_witness :
    rowFindings dfRow =
      [⟨"Disk Space Critical".data, diskMsg (splitWs dfRow) 96, Importance.Critical⟩] :=
  (disk_usage_strict_thresholds.1 dfRow (splitWs dfRow) "96%".data 96
    (by decide) rfl (by decide) (by decide) (by decide)).1 (by decide)

/-- Claim C6: `parse_intelligently` computes the metadata once, before
dispatch; every extractor attaches the metadata it receives unchanged;
hence `metadata.format_detected` always equals the Format that drove the
dispatch. -/
theorem metadata_attached_unchanged (jp : Str → Option JsonValue) (raw command : Str) :
    (parse_intelligently jp raw command).metadata =
      { line_count := (rlines raw).length
      , byte_count := utf8Len raw
      , duration_ms := none
      , format_detected := detect_format raw command } ∧
    (parse_intelligently jp raw command).metadata.format_detected =
      detect_format raw command ∧
    (∀ md, (parse_nmap raw md).metadata = md) ∧
    (∀ md, (parse_network_table raw md).metadata = md) ∧
    (∀ md, (parse_process_table raw md).metadata = md) ∧
    (∀ md, (parse_ls_long raw md).metadata = md) ∧
    (∀ md, (parse_ip_addr raw md).metadata = md) ∧
    (∀ md, (parse_systemctl raw md).metadata = md) ∧
    (∀ md, (parse_disk_usage raw md).metadata = md) ∧
    (∀ md, (parse_journalctl raw md).metadata = md) ∧
    (∀ md, (parse_json jp raw md).metadata = md) ∧
    (∀ md, (parse_generic raw md).metadata = md) := by
  have h1 : (parse_intelligently jp raw command).metadata =
      { line_count := (rlines raw).length
      , byte_count := utf8Len raw
      , duration_ms := none
      , format_detected := detect_format raw command } := by
    simp only [parse_intelligently]
    split_ifs <;> rfl
  exact ⟨h1, by rw [h1], fun _ => rfl, fun _ => rfl, fun _ => rfl, fun _ => rfl,
    fun _ => rfl, fun _ => rfl, fun _ => rfl, fun _ => rfl, fun _ => rfl, fun _ => rfl⟩

/-- Claim C7: JSON extraction is total: a text the JSON parser accepts
lands in `structured` unchanged; a text it rejects yields
`structured = obj [raw ↦ text]`; either way the extractor returns a full
`ParsedOutput` (no failure path). -/
theorem json_extraction_roundtrip (jp : Str → Option JsonValue) (raw : Str) (md : Metadata) :
    (∀ v, jp raw = some v → (parse_json jp raw md).structured = v) ∧
    (jp raw = none →
      (parse_json jp raw md).structured = .obj [("raw".data, .str raw)]) ∧
    (parse_json jp raw md).raw = raw ∧
    (parse_json jp raw md).metadata = md ∧
    (parse_json jp raw md).findings =
      [⟨"Format".data, "JSON data detected and parsed".data, Importance.Info⟩] := by
  refine ⟨?_, ?_, rfl, rfl, rfl⟩
  · intro v hv
    simp [parse_json, hv]
  · intro hv
    simp [parse_json, hv]

theorem json_extraction_roundtrip_witness :
    (parse_json (fun _ => some JsonValue.null) "1".data mdSample).structured =
      JsonValue.null ∧
    (parse_json (fun _ => none) "oops".data mdSample).structured =
      .obj [("raw".data, .str "oops".data)] :=
  ⟨(json_extraction_roundtrip (fun _ => some JsonValue.null) "1".data mdSample).1
      JsonValue.null rfl,
    (json_extraction_roundtrip (fun _ => none) "oops".data mdSample).2.1 rfl⟩

/-- Claim C10: the nmap Host Count finding is emitted iff `hosts_up > 0`,
and the network-table Active Connections finding iff
`established_count > 0`. -/
theorem count_findings_iff_positive (raw : Str) (md : Metadata) :
    ((∃ f ∈ (parse_nmap raw md).findings, f.category = "Host Count".data) ↔
      0 < (nmapScan raw).1) ∧
    ((∃ f ∈ (parse_network_table raw md).findings,
        f.category = "Active Connections".data) ↔
      0 < (netScan raw).2.1) := by
  constructor
  · by_cases h : 0 < (nmapScan raw).1
    · refine ⟨fun _ => h, fun _ => ?_⟩
      refine ⟨⟨"Host Count".data,
        "Found ".data ++ natToStr (nmapScan raw).1 ++ " active host(s) on network".data,
        if 10 < (nmapScan raw).1 then Importance.High else Importance.Medium⟩,
        ?_, rfl⟩
      simp [parse_nmap, h]
    · refine ⟨fun hf => ?_, fun hp => absurd hp h⟩
      exfalso
      obtain ⟨f, hf, hcat⟩ := hf
      simp only [parse_nmap] at hf
      rcases List.mem_append.mp hf with hAB | hC
      · rcases List.mem_append.mp hAB with hA | hB
        · exact h (mem_ite_nil f _ _ hA).1
        · obtain ⟨-, hB⟩ := mem_ite_nil f _ _ hB
          rw [List.mem_singleton.mp hB] at hcat
          simp at hcat
      · obtain ⟨-, hC⟩ := mem_ite_nil f _ _ hC
        rw [List.mem_singleton.mp hC] at hcat
        simp at hcat
  · by_cases h : 0 < (netScan raw).2.1
    · refine ⟨fun _ => h, fun _ => ?_⟩
      refine ⟨⟨"Active Connections".data,
        natToStr (netScan raw).2.1 ++ " established connection(s)".data,
        if 50 < (netScan raw).2.1 then Importance.High else Importance.Info⟩,
        ?_, rfl⟩
      simp [parse_network_table, h]
    · refine ⟨fun hf => ?_, fun hp => absurd hp h⟩
      exfalso
      obtain ⟨f, hf, hcat⟩ := hf
      simp only [parse_network_table] at hf
      rcases List.mem_append.mp hf with hA | hB
      · exact h (mem_ite_nil f _ _ hA).1
      · obtain ⟨-, hB⟩ := mem_ite_nil f _ _ hB
        rw [List.mem_singleton.mp hB] at hcat
        simp at hcat

theorem count_findings_iff_positive_witness :
    (∃ f ∈ (parse_nmap "Host is up (0.0010s latency).".data mdSample).findings,
      f.category = "Host Count".data) ∧
    (∃ f ∈ (parse_network_table
        "tcp 0 0 10.0.0.1:22 10.0.0.2:5000 ESTABLISHED".data mdSample).findings,
      f.category = "Active Connections".data) :=
  ⟨(count_findings_iff_positive "Host is up (0.0010s latency).".data mdSample).1.mpr
      (by decide),
    (count_findings_iff_positive
        "tcp 0 0 10.0.0.1:22 10.0.0.2:5000 ESTABLISHED".data mdSample).2.mpr
      (by decide)⟩

end Archy
